import Mathlib

/-!
Shallow embedding of `backend/python-services/src/analyzer/image_analysis.py`.

The Python module computes, for an image file path and a caption string, a
record `{tags, vibe, lighting_score, quality_score, faces_count}`:

* `tags_from_caption` lowercases the caption and scans a fixed keyword map;
* `brightness_score` is the mean of the OpenCV grayscale image divided by 255;
* `sharpness_score` is `1 - 1/(1 + var/100)` where `var` is the variance of
  the discrete Laplacian (3×3 aperture, reflect-101 border) of the grayscale;
* `detect_faces` runs a Haar cascade, returning 0 whenever OpenCV, the
  cascade file, or detection itself is unavailable or fails;
* `analyze_image` stitches these together, with caption-only fallbacks when
  no path is given, OpenCV is missing, the file does not exist, the bytes do
  not decode, or any step of the main branch raises.

External effects (OpenCV availability, the file system, the byte decoder and
the cascade detector's output) are modelled by an explicit `Env` record, so
every function is a pure function of its inputs.  Python strings are modelled
as lists of Unicode code points.
-/

namespace ImageAnalysis

/-- Code points of a Lean string literal; used to write Python `str` values. -/
def str (s : String) : List ℕ := s.toList.map Char.toNat

/-- Python `str.lower` on a single ASCII code point (`A`–`Z` ↦ `a`–`z`). -/
def lowerCode (n : ℕ) : ℕ := if 65 ≤ n ∧ n ≤ 90 then n + 32 else n

/-- Python `str.lower` (ASCII letters; other code points are unchanged). -/
def lowerStr (s : List ℕ) : List ℕ := s.map lowerCode

/-- Python `hay.startswith(needle)` on code-point lists. -/
def startsWith : List ℕ → List ℕ → Bool
  | _, [] => true
  | [], _ :: _ => false
  | a :: as, b :: bs => a == b && startsWith as bs

/-- Python `k in hay` (substring containment) on code-point lists. -/
def hasSubstr (k : List ℕ) : List ℕ → Bool
  | [] => startsWith [] k
  | a :: t => startsWith (a :: t) k || hasSubstr k t

/-- The keyword map of `tags_from_caption` (insertion order of the Python
dict: food, travel, fashion, fitness, nature). -/
def mapping : List (String × List (List ℕ)) :=
  [("food", [str "food", str "pizza", str "sushi", str "delicious"]),
   ("travel", [str "travel", str "beach", str "vacation", str "trip", str "sea"]),
   ("fashion", [str "fashion", str "style", str "ootd"]),
   ("fitness", [str "gym", str "workout", str "fitness", str "fit"]),
   ("nature", [str "sunset", str "sunrise", str "mountain", str "sky"])]

/-- `tags_from_caption`: lowercase the caption, then append each map key whose
keyword list has a member occurring in the caption. -/
def tags_from_caption (caption : List ℕ) : List String :=
  let cap := lowerStr caption
  (mapping.filter fun p => p.2.any fun k => hasSubstr k cap).map Prod.fst

/-- A decoded BGR raster image: dimensions and a pixel map giving the
`(B, G, R)` byte triple at row `i`, column `j`. -/
structure Img where
  h : ℕ
  w : ℕ
  pix : ℕ → ℕ → ℕ × ℕ × ℕ

/-- OpenCV BGR→gray conversion on one pixel, in cv2's exact fixed-point
arithmetic: `(4899·R + 9617·G + 1868·B + 8192) >> 14`. -/
def grayPix (p : ℕ × ℕ × ℕ) : ℕ :=
  (4899 * p.2.2 + 9617 * p.2.1 + 1868 * p.1 + 8192) / 16384

/-- Grayscale value at `(i, j)` as a rational. -/
def gray (img : Img) (i j : ℕ) : ℚ := (grayPix (img.pix i j) : ℚ)

/-- cv2's default `BORDER_REFLECT_101` coordinate reflection (for the offsets
±1 used by the 3×3 Laplacian aperture). -/
def reflect101 (n : ℕ) (i : ℤ) : ℤ :=
  if i < 0 then -i else if (n : ℤ) ≤ i then 2 * ((n : ℤ) - 1) - i else i

/-- Grayscale lookup with border reflection, on integer coordinates. -/
def grayAt (img : Img) (i j : ℤ) : ℚ :=
  gray img (reflect101 img.h i).toNat (reflect101 img.w j).toNat

/-- `cv2.Laplacian(gray, CV_64F)` with the default 3×3 aperture
`[[0,1,0],[1,-4,1],[0,1,0]]` at pixel `(i, j)`. -/
def laplacian (img : Img) (i j : ℕ) : ℚ :=
  grayAt img ((i : ℤ) - 1) j + grayAt img ((i : ℤ) + 1) j +
    grayAt img i ((j : ℤ) - 1) + grayAt img i ((j : ℤ) + 1) -
    4 * grayAt img i j

/-- All pixel coordinates of an image, row-major. -/
def coords (img : Img) : List (ℕ × ℕ) :=
  (List.range img.h).flatMap fun i => (List.range img.w).map fun j => (i, j)

/-- Sum of a per-pixel quantity over the whole image. -/
def sumOver (img : Img) (f : ℕ → ℕ → ℚ) : ℚ :=
  ((coords img).map fun p => f p.1 p.2).sum

/-- numpy `.mean()` of a per-pixel quantity. -/
def npMean (img : Img) (f : ℕ → ℕ → ℚ) : ℚ :=
  sumOver img f / (img.h * img.w : ℕ)

/-- numpy `.var()` (population variance) of a per-pixel quantity. -/
def npVar (img : Img) (f : ℕ → ℕ → ℚ) : ℚ :=
  npMean img fun i j => (f i j - npMean img f) ^ 2

/-- Mean grayscale intensity (`gray.mean()` in the source). -/
def meanGray (img : Img) : ℚ := npMean img (gray img)

/-- Variance of the Laplacian of the grayscale image (`lap.var()`). -/
def lapVar (img : Img) : ℚ := npVar img (laplacian img)

/-- `brightness_score`: 0.5 when cv2 is unavailable, else mean gray / 255. -/
def brightness_score (cv2ok : Bool) (img : Img) : ℚ :=
  if cv2ok then meanGray img / 255 else 1 / 2

/-- `sharpness_score`: 0.5 when cv2 is unavailable, else
`1 - 1/(1 + var/100)` for the Laplacian variance `var`. -/
def sharpness_score (cv2ok : Bool) (img : Img) : ℚ :=
  if cv2ok then 1 - 1 / (1 + lapVar img / 100) else 1 / 2

/-- External state of one `analyze_image` call: availability of cv2 and of
the Haar cascade file, truthiness of `path`, `os.path.exists`, whether the
read/decode step raises, the decoder's output, whether the loaded cascade is
empty, whether `detectMultiScale` raises, and the number of detections it
reports when it succeeds. -/
structure Env where
  cv2 : Bool
  haar : Bool
  pathGiven : Bool
  fileExists : Bool
  readRaises : Bool
  decoded : Option Img
  cascadeEmpty : Bool
  detectRaises : Bool
  faces : ℕ

/-- `detect_faces`: 0 when cv2 or the cascade path is unavailable, when the
cascade fails to load, or when detection raises; otherwise the cascade's
detection count (supplied by the environment). -/
def detect_faces (env : Env) (_img : Img) : ℕ :=
  if !env.cv2 || !env.haar then 0
  else if env.cascadeEmpty then 0
  else if env.detectRaises then 0
  else env.faces

/-- Python `round(x, 3)` (ties, which no claim exercises, are modelled as
round-half-up). -/
def pyRound3 (q : ℚ) : ℚ := (round (q * 1000) : ℤ) / 1000

/-- The dict returned by `analyze_image`. -/
structure AnalysisResult where
  tags : List String
  vibe : String
  lighting_score : ℚ
  quality_score : ℚ
  faces_count : ℕ
deriving DecidableEq

/-- `analyze_image`, translated branch by branch from the source. -/
def analyze_image (env : Env) (caption : List ℕ) : AnalysisResult :=
  let tags := tags_from_caption caption
  if !env.pathGiven || !env.cv2 || !env.fileExists then
    { tags := tags, vibe := tags.headD "neutral",
      lighting_score := 1 / 2, quality_score := 1 / 2, faces_count := 0 }
  else if env.readRaises then
    { tags := tags, vibe := tags.headD "neutral",
      lighting_score := 1 / 2, quality_score := 1 / 2, faces_count := 0 }
  else
    match env.decoded with
    | none =>
      { tags := tags, vibe := "neutral",
        lighting_score := 1 / 2, quality_score := 1 / 2, faces_count := 0 }
    | some img =>
      let light := brightness_score env.cv2 img
      let sharp := sharpness_score env.cv2 img
      let faces := detect_faces env img
      let quality := (light + sharp) / 2
      let vibe :=
        if 7 / 10 < quality ∧ 6 / 10 < light then "aesthetic"
        else if 0 < faces then "portrait"
        else if light < 35 / 100 then "moody"
        else "casual"
      let tags2 :=
        if 0 < faces ∧ "portrait" ∉ tags then tags ++ ["portrait"] else tags
      { tags := tags2, vibe := vibe,
        lighting_score := pyRound3 light, quality_score := pyRound3 quality,
        faces_count := faces }

/-- Result of a call viewed at the exception boundary: the source catches
every exception inside `analyze_image` and defines no `DecodeError`, so the
embedding always produces `ok`. -/
inductive Outcome where
  | ok (r : AnalysisResult)
  | decodeError
deriving DecidableEq

/-- `analyze_image` observed at the exception boundary. -/
def analyze_image_outcome (env : Env) (caption : List ℕ) : Outcome :=
  Outcome.ok (analyze_image env caption)

/-- Lexicographic order on code-point lists (Python string comparison). -/
def lexLeB : List ℕ → List ℕ → Bool
  | [], _ => true
  | _ :: _, [] => false
  | a :: as, b :: bs => if a < b then true else if b < a then false else lexLeB as bs

/-- A tag list sorted lexicographically (by code points, as Python compares
strings). -/
abbrev sortedTags (l : List String) : Prop :=
  List.Sorted (fun a b => lexLeB (str a) (str b) = true) l

/-! ### Concrete images and environments used as inputs -/

/-- A solid-color image: every pixel is the gray BGR triple `(v, v, v)`. -/
def constImg (h w v : ℕ) : Img := { h := h, w := w, pix := fun _ _ => (v, v, v) }

/-- A 2×2 mid-gray image (every pixel 128). -/
def img22 : Img := constImg 2 2 128

/-- The mid-gray 800×600 image of the spec scenario (600 rows, 800 cols). -/
def img800 : Img := constImg 600 800 128

/-- A 2×2 image whose top-left pixel has value 4, the rest 0; its Laplacian
has nonzero variance. -/
def img4 : Img :=
  { h := 2, w := 2, pix := fun i j => if i = 0 ∧ j = 0 then (4, 4, 4) else (0, 0, 0) }

/-- The pixel data of a decoded `uint8` image: every channel is a byte. -/
def uint8Img (img : Img) : Prop :=
  ∀ i j, (img.pix i j).1 ≤ 255 ∧ (img.pix i j).2.1 ≤ 255 ∧ (img.pix i j).2.2 ≤ 255

/-- Environment of a caption-only call: no path was supplied. -/
def envNoPath : Env :=
  { cv2 := true, haar := true, pathGiven := false, fileExists := false,
    readRaises := false, decoded := none, cascadeEmpty := false,
    detectRaises := false, faces := 0 }

/-- Environment where the file exists but its bytes do not decode
(`cv2.imdecode` returns `None`). -/
def envDecodeFail : Env :=
  { cv2 := true, haar := true, pathGiven := true, fileExists := true,
    readRaises := false, decoded := none, cascadeEmpty := false,
    detectRaises := false, faces := 0 }

/-- Environment of the mid-gray 800×600 scenario: everything available, the
cascade loads and reports no detection on the featureless image. -/
def envGray800 : Env :=
  { cv2 := true, haar := true, pathGiven := true, fileExists := true,
    readRaises := false, decoded := some img800, cascadeEmpty := false,
    detectRaises := false, faces := 0 }

/-- Environment where the cascade detects exactly one face in `img22`. -/
def envFace1 : Env :=
  { cv2 := true, haar := true, pathGiven := true, fileExists := true,
    readRaises := false, decoded := some img22, cascadeEmpty := false,
    detectRaises := false, faces := 1 }

/-- Environment where the Haar cascade file could not be located, with a
decoded image present. -/
def envNoHaar : Env :=
  { cv2 := true, haar := false, pathGiven := true, fileExists := true,
    readRaises := false, decoded := some img22, cascadeEmpty := false,
    detectRaises := false, faces := 7 }

/-! ### Evaluation lemmas -/

theorem coords_length (img : Img) : (coords img).length = img.h * img.w := by
  simp [coords, List.length_flatMap, Function.comp_def, List.map_const',
    List.sum_replicate, smul_eq_mul]

theorem sumOver_congr (img : Img) (f g : ℕ → ℕ → ℚ)
    (h : ∀ i j, f i j = g i j) : sumOver img f = sumOver img g := by
  unfold sumOver
  exact congrArg List.sum (List.map_congr_left fun p _ => h p.1 p.2)

theorem sumOver_const (img : Img) (c : ℚ) :
    sumOver img (fun _ _ => c) = (img.h * img.w : ℕ) * c := by
  unfold sumOver
  rw [List.map_const', List.sum_replicate, coords_length, nsmul_eq_mul]

theorem npMean_const (img : Img) (c : ℚ) (hn : (img.h * img.w : ℚ) ≠ 0) :
    npMean img (fun _ _ => c) = c := by
  unfold npMean
  rw [sumOver_const]
  push_cast
  field_simp

theorem gray_const (h w v : ℕ) (i j : ℕ) :
    gray (constImg h w v) i j = (grayPix (v, v, v) : ℚ) := rfl

theorem grayAt_const (h w v : ℕ) (i j : ℤ) :
    grayAt (constImg h w v) i j = (grayPix (v, v, v) : ℚ) := rfl

theorem laplacian_const (h w v : ℕ) (i j : ℕ) :
    laplacian (constImg h w v) i j = 0 := by
  simp only [laplacian, grayAt_const]
  ring

theorem meanGray_const (h w v : ℕ) (hn : (h * w : ℚ) ≠ 0) :
    meanGray (constImg h w v) = (grayPix (v, v, v) : ℚ) := by
  unfold meanGray npMean
  rw [sumOver_congr _ _ _ (gray_const h w v), sumOver_const,
    show ((constImg h w v).h * (constImg h w v).w : ℕ) = h * w from rfl]
  push_cast at hn ⊢
  field_simp

theorem npVar_of_zero (img : Img) (f : ℕ → ℕ → ℚ)
    (h : ∀ i j, f i j = 0) : npVar img f = 0 := by
  unfold npVar npMean
  rw [sumOver_congr _ _ _ h, sumOver_const, mul_zero, zero_div]
  rw [sumOver_congr img _ (fun _ _ => 0) (by intro i j; rw [h]; ring), sumOver_const,
    mul_zero, zero_div]

theorem lapVar_const (h w v : ℕ) : lapVar (constImg h w v) = 0 :=
  npVar_of_zero _ _ (laplacian_const h w v)

theorem sumOver_coords (img : Img) (l : List (ℕ × ℕ)) (hc : coords img = l)
    (f : ℕ → ℕ → ℚ) : sumOver img f = (l.map fun p => f p.1 p.2).sum := by
  rw [sumOver, hc]

theorem grayPix_128 : grayPix (128, 128, 128) = 128 := by decide

theorem meanGray_img22 : meanGray img22 = 128 := by
  unfold img22
  rw [meanGray_const 2 2 128 (by norm_num), grayPix_128]
  norm_num

theorem meanGray_img800 : meanGray img800 = 128 := by
  unfold img800
  rw [meanGray_const 600 800 128 (by norm_num), grayPix_128]
  norm_num

theorem lapVar_img800 : lapVar img800 = 0 := by
  unfold img800
  exact lapVar_const 600 800 128

theorem laplacian_img4 :
    laplacian img4 0 0 = -16 ∧ laplacian img4 0 1 = 8 ∧
      laplacian img4 1 0 = 8 ∧ laplacian img4 1 1 = 0 := by
  refine ⟨?_, ?_, ?_, ?_⟩ <;>
    norm_num [laplacian, grayAt, img4, reflect101, gray, grayPix]

theorem lapVar_img4 : lapVar img4 = 96 := by
  have hc : coords img4 = [(0, 0), (0, 1), (1, 0), (1, 1)] := by decide
  obtain ⟨h00, h01, h10, h11⟩ := laplacian_img4
  have hμ : npMean img4 (laplacian img4) = 0 := by
    unfold npMean
    rw [sumOver_coords img4 _ hc]
    simp only [List.map_cons, List.map_nil, List.sum_cons, List.sum_nil,
      h00, h01, h10, h11]
    norm_num
  unfold lapVar npVar
  simp only [hμ]
  unfold npMean
  rw [sumOver_coords img4 _ hc]
  simp only [List.map_cons, List.map_nil, List.sum_cons, List.sum_nil,
    h00, h01, h10, h11]
  norm_num [show img4.h = 2 from rfl, show img4.w = 2 from rfl]

theorem npVar_nonneg (img : Img) (f : ℕ → ℕ → ℚ) : 0 ≤ npVar img f := by
  unfold npVar npMean
  apply div_nonneg
  · apply List.sum_nonneg
    intro x hx
    obtain ⟨p, _, rfl⟩ := List.mem_map.mp hx
    positivity
  · positivity

theorem grayPix_le_255 (p : ℕ × ℕ × ℕ)
    (hp : p.1 ≤ 255 ∧ p.2.1 ≤ 255 ∧ p.2.2 ≤ 255) : grayPix p ≤ 255 := by
  unfold grayPix
  calc (4899 * p.2.2 + 9617 * p.2.1 + 1868 * p.1 + 8192) / 16384
      ≤ (4899 * 255 + 9617 * 255 + 1868 * 255 + 8192) / 16384 :=
        Nat.div_le_div_right (by omega)
    _ = 255 := by decide

theorem meanGray_bounds (img : Img) (hb : uint8Img img) :
    0 ≤ meanGray img ∧ meanGray img ≤ 255 := by
  unfold meanGray npMean
  have hnn : (0 : ℚ) ≤ sumOver img (gray img) := by
    apply List.sum_nonneg
    intro x hx
    obtain ⟨p, _, rfl⟩ := List.mem_map.mp hx
    unfold gray
    positivity
  have hle : sumOver img (gray img) ≤ ((img.h * img.w : ℕ) : ℚ) * 255 := by
    have := List.sum_le_card_nsmul ((coords img).map fun p => gray img p.1 p.2)
      (255 : ℚ) ?_
    · rw [List.length_map, coords_length, nsmul_eq_mul] at this
      exact this
    · intro x hx
      obtain ⟨p, _, rfl⟩ := List.mem_map.mp hx
      unfold gray
      exact_mod_cast grayPix_le_255 _ (hb p.1 p.2)
  rcases Nat.eq_zero_or_pos (img.h * img.w) with hz | hp
  · rw [hz]
    push_cast
    rw [div_zero]
    norm_num
  · have hq : (0 : ℚ) < ((img.h * img.w : ℕ) : ℚ) := by exact_mod_cast hp
    constructor
    · exact div_nonneg hnn hq.le
    · rw [div_le_iff₀ hq]
      linarith

theorem tags_from_caption_sublist (c : List ℕ) :
    List.Sublist (tags_from_caption c) (mapping.map Prod.fst) := by
  unfold tags_from_caption
  exact (List.filter_sublist _).map Prod.fst

theorem tags_from_caption_nodup (c : List ℕ) : (tags_from_caption c).Nodup :=
  List.Nodup.sublist (tags_from_caption_sublist c) (by decide)

theorem lowerCode_idem (n : ℕ) : lowerCode (lowerCode n) = lowerCode n := by
  unfold lowerCode
  split_ifs <;> omega

theorem lowerStr_idem (s : List ℕ) : lowerStr (lowerStr s) = lowerStr s := by
  unfold lowerStr
  rw [List.map_map]
  exact List.map_congr_left fun a _ => lowerCode_idem a

theorem tags_from_caption_lower (c : List ℕ) :
    tags_from_caption (lowerStr c) = tags_from_caption c := by
  unfold tags_from_caption lowerStr
  rw [show List.map lowerCode (List.map lowerCode c) = List.map lowerCode c from
    lowerStr_idem c]

/-! ### Claims -/

/-- C1.  Determinism: the embedded `analyze_image` is a pure function of the
decoded input and environment, so two runs on byte-identical input (hence
equal decoded images and equal external state) yield identical records —
equal tags, vibe, lighting_score, quality_score and faces_count. -/
theorem analyze_image_deterministic (e₁ e₂ : Env) (c₁ c₂ : List ℕ)
    (he : e₁ = e₂) (hc : c₁ = c₂) :
    analyze_image e₁ c₁ = analyze_image e₂ c₂ := by
  rw [he, hc]

theorem analyze_image_deterministic_witness :
    analyze_image envNoPath (str "food") = analyze_image envNoPath (str "food") :=
  analyze_image_deterministic envNoPath envNoPath (str "food") (str "food") rfl rfl

/-- C2 counterexample.  The caption "travel fashion" produces the tag list
`["travel", "fashion"]`, which is not sorted lexicographically: the tags come
out in the fixed dict order food, travel, fashion, fitness, nature. -/
theorem tags_sorted_counterexample :
    ¬ sortedTags (analyze_image envNoPath (str "travel fashion")).tags := by
  decide

/-- C2 amended.  The tag list produced by `tags_from_caption` plus the
portrait append never contains duplicates (but it is in dict order — food,
travel, fashion, fitness, nature, then portrait — not sorted). -/
theorem analyze_image_tags_nodup (env : Env) (c : List ℕ) :
    (analyze_image env c).tags.Nodup := by
  simp only [analyze_image]
  split
  · exact tags_from_caption_nodup c
  split
  · exact tags_from_caption_nodup c
  split
  · exact tags_from_caption_nodup c
  split
  · rename_i hguard
    refine List.Nodup.append (tags_from_caption_nodup c) (by simp) ?_
    intro x hx hmem
    rw [List.mem_singleton] at hmem
    exact hguard.2 (hmem ▸ hx)
  · exact tags_from_caption_nodup c

/-- C3 counterexample.  When the bytes fail to decode (`imdecode` returns
`None`), `analyze_image` does not raise a `DecodeError`: it returns a normal
fallback record.  (The source defines no `DecodeError` at all and catches
every exception.) -/
theorem decode_error_counterexample :
    envDecodeFail.decoded = none ∧
      analyze_image_outcome envDecodeFail [] ≠ Outcome.decodeError := by
  exact ⟨rfl, by simp [analyze_image_outcome]⟩

/-- C3 amended.  For every input that does not decode to a valid image,
`analyze_image` returns (never raises) the fallback record with the
caption-derived tags, vibe "neutral", scores 0.5 and zero faces. -/
theorem analyze_image_decode_failure (env : Env) (c : List ℕ)
    (hp : env.pathGiven = true) (hc : env.cv2 = true) (hf : env.fileExists = true)
    (hr : env.readRaises = false) (hd : env.decoded = none) :
    analyze_image_outcome env c =
      Outcome.ok { tags := tags_from_caption c, vibe := "neutral",
                   lighting_score := 1 / 2, quality_score := 1 / 2,
                   faces_count := 0 } := by
  simp [analyze_image_outcome, analyze_image, hp, hc, hf, hr, hd]

theorem analyze_image_decode_failure_witness :
    analyze_image_outcome envDecodeFail [] =
      Outcome.ok { tags := tags_from_caption [], vibe := "neutral",
                   lighting_score := 1 / 2, quality_score := 1 / 2,
                   faces_count := 0 } :=
  analyze_image_decode_failure envDecodeFail [] rfl rfl rfl rfl rfl

/-- C4.  Degraded dependencies: whenever the Haar cascade file is
unavailable, the cascade fails to load, or detection raises, the (always
returned) record has `faces_count = 0`; the embedding is total by
construction, so no fatal error can propagate. -/
theorem analyze_image_degraded_faces (env : Env) (c : List ℕ)
    (h : env.haar = false ∨ env.cascadeEmpty = true ∨ env.detectRaises = true) :
    (analyze_image env c).faces_count = 0 := by
  simp only [analyze_image]
  split
  · rfl
  split
  · rfl
  split
  · rfl
  · rename_i x img heq
    show detect_faces env img = 0
    unfold detect_faces
    rcases h with h | h | h <;> simp [h]

theorem analyze_image_degraded_faces_witness :
    (analyze_image envNoHaar []).faces_count = 0 :=
  analyze_image_degraded_faces envNoHaar [] (Or.inl rfl)

/-- C5 counterexample.  On a 2×2 image whose Laplacian variance is 96, the
reported sharpness is `1 - 1/(1 + 96/100) = 24/49`, not 96: the score is a
rescaling of the variance, not the variance itself. -/
theorem sharpness_counterexample : sharpness_score true img4 ≠ lapVar img4 := by
  simp only [sharpness_score, if_true, lapVar_img4]
  norm_num

/-- C5 amended.  The reported sharpness equals `1 - 1/(1 + v/100)` where `v`
is the variance of the discrete Laplacian of the grayscale image; it is
nonnegative but bounded above by 1 (rescaled into `[0,1)`), not unbounded. -/
theorem sharpness_score_rescaled (img : Img) :
    sharpness_score true img = 1 - 1 / (1 + lapVar img / 100) ∧
      0 ≤ sharpness_score true img ∧ sharpness_score true img < 1 := by
  have hv : 0 ≤ lapVar img := npVar_nonneg img (laplacian img)
  have hpos : (0 : ℚ) < 1 + lapVar img / 100 := by linarith
  have h1 : 1 / (1 + lapVar img / 100) ≤ 1 := by
    rw [div_le_one hpos]
    linarith
  have h2 : 0 < 1 / (1 + lapVar img / 100) := by positivity
  refine ⟨rfl, ?_, ?_⟩ <;> simp only [sharpness_score, if_true] <;> linarith

/-- C6 counterexample.  A uniform mid-gray image of pixel value 128 yields
brightness `128/255 ≈ 0.502`, not 128: the score is the mean grayscale
intensity divided by 255, i.e. normalized into `[0,1]`. -/
theorem brightness_counterexample :
    brightness_score true img22 = 128 / 255 ∧ brightness_score true img22 ≠ 128 := by
  constructor
  · simp only [brightness_score, if_true, meanGray_img22]
  · simp only [brightness_score, if_true, meanGray_img22]
    norm_num

/-- C6 amended.  The reported brightness equals the mean grayscale intensity
divided by 255; for byte-valued pixel data it lies in `[0,1]` (a uniform
mid-gray image of value 128 yields `128/255`, not 128). -/
theorem brightness_score_normalized (img : Img) (hb : uint8Img img) :
    brightness_score true img = meanGray img / 255 ∧
      0 ≤ brightness_score true img ∧ brightness_score true img ≤ 1 := by
  obtain ⟨h0, h255⟩ := meanGray_bounds img hb
  refine ⟨rfl, ?_, ?_⟩ <;> simp only [brightness_score, if_true]
  · positivity
  · rw [div_le_one (by norm_num)]
    linarith

theorem brightness_score_normalized_witness :
    brightness_score true img22 = meanGray img22 / 255 ∧
      0 ≤ brightness_score true img22 ∧ brightness_score true img22 ≤ 1 :=
  brightness_score_normalized img22
    (fun i j => by refine ⟨?_, ?_, ?_⟩ <;> norm_num [img22, constImg])

theorem gray800_eval :
    analyze_image envGray800 [] =
      { tags := [], vibe := "casual", lighting_score := 251 / 500,
        quality_score := 251 / 1000, faces_count := 0 } := by
  have htags : tags_from_caption ([] : List ℕ) = [] := by decide
  have hb : brightness_score true img800 = 128 / 255 := by
    simp only [brightness_score, if_true, meanGray_img800]
  have hs : sharpness_score true img800 = 0 := by
    simp only [sharpness_score, if_true, lapVar_img800]
    norm_num
  have hf : detect_faces envGray800 img800 = 0 := by
    simp [detect_faces, envGray800]
  simp only [analyze_image, show envGray800.pathGiven = true from rfl,
    show envGray800.cv2 = true from rfl, show envGray800.fileExists = true from rfl,
    show envGray800.readRaises = false from rfl,
    show envGray800.decoded = some img800 from rfl, htags, hb, hs, hf]
  norm_num [pyRound3, round_eq, Int.floor_eq_iff]

/-- C7 counterexample.  On the mid-gray 800×600 image with no caption the
result's tag list is empty (so contains no `well-lit`) and the vibe is
`casual`, not `calm`: the engine has neither metric-derived tags nor a `calm`
vibe label. -/
theorem gray800_counterexample :
    ¬ ("well-lit" ∈ (analyze_image envGray800 []).tags ∧
        (analyze_image envGray800 []).vibe = "calm") := by
  rw [gray800_eval]
  simp

/-- C7 amended.  A mid-gray 800×600 image with no caption yields the record
with empty tags, vibe `casual`, lighting 0.502, quality 0.251 and no faces. -/
theorem gray800_analysis :
    analyze_image envGray800 [] =
      { tags := [], vibe := "casual", lighting_score := 251 / 500,
        quality_score := 251 / 1000, faces_count := 0 } :=
  gray800_eval

/-- C8 counterexample.  With exactly one detected face and an empty caption
the result's tags are just `["portrait"]`: neither `people` nor `selfie` is
ever generated. -/
theorem face_tags_counterexample :
    0 < (analyze_image envFace1 []).faces_count ∧
      "people" ∉ (analyze_image envFace1 []).tags ∧
      "selfie" ∉ (analyze_image envFace1 []).tags := by
  decide

/-- C8 amended.  Whenever the result reports at least one detected face, the
tag `portrait` is in the tag list (but `people`, `selfie` and `group` are
never added). -/
theorem faces_imply_portrait_tag (env : Env) (c : List ℕ)
    (h : 0 < (analyze_image env c).faces_count) :
    "portrait" ∈ (analyze_image env c).tags := by
  simp only [analyze_image] at h ⊢
  by_cases h1 : (!env.pathGiven || !env.cv2 || !env.fileExists) = true
  · rw [if_pos h1] at h
    simp at h
  · rw [if_neg h1] at h ⊢
    by_cases h2 : env.readRaises = true
    · rw [if_pos h2] at h
      simp at h
    · rw [if_neg h2] at h ⊢
      cases hd : env.decoded with
      | none =>
        rw [hd] at h
        simp at h
      | some img =>
        rw [hd] at h
        simp only at h ⊢
        by_cases h3 : "portrait" ∈ tags_from_caption c
        · rw [if_neg (by simp [h3])]
          exact h3
        · rw [if_pos ⟨h, h3⟩]
          exact List.mem_append_right _ (by simp)

theorem faces_imply_portrait_tag_witness :
    "portrait" ∈ (analyze_image envFace1 []).tags :=
  faces_imply_portrait_tag envFace1 [] (by decide)

/-- C9.  Closed tag vocabulary: every produced tag is one of food, travel,
fashion, fitness, nature, portrait; and caption matching is
case-insensitive — the caption tags depend only on the lowercased caption. -/
theorem analyze_image_tags_vocab (env : Env) (c : List ℕ) :
    (analyze_image env c).tags ⊆
        ["food", "travel", "fashion", "fitness", "nature", "portrait"] ∧
      tags_from_caption c = tags_from_caption (lowerStr c) := by
  have hsub : tags_from_caption c ⊆
      ["food", "travel", "fashion", "fitness", "nature", "portrait"] := by
    intro t ht
    have h5 := (tags_from_caption_sublist c).subset ht
    rw [show mapping.map Prod.fst = ["food", "travel", "fashion", "fitness", "nature"]
      from rfl] at h5
    exact (by decide :
      (["food", "travel", "fashion", "fitness", "nature"] : List String) ⊆
        ["food", "travel", "fashion", "fitness", "nature", "portrait"]) h5
  refine ⟨?_, (tags_from_caption_lower c).symm⟩
  simp only [analyze_image]
  split
  · exact hsub
  split
  · exact hsub
  split
  · exact hsub
  split
  · exact List.append_subset.mpr ⟨hsub, by decide⟩
  · exact hsub

theorem analyze_image_tags_vocab_witness :
    tags_from_caption (str "TRAVEL") = tags_from_caption (lowerStr (str "TRAVEL")) ∧
      "travel" ∈ ["food", "travel", "fashion", "fitness", "nature", "portrait"] :=
  ⟨(analyze_image_tags_vocab envNoPath (str "TRAVEL")).2,
   (analyze_image_tags_vocab envNoPath (str "TRAVEL")).1 (by decide)⟩

/-- C10 counterexample.  When the bytes fail to decode and the caption yields
tags (`"I love food"` ↦ `["food"]`), the vibe is `"neutral"`, not the first
caption tag `"food"` as the claim requires for this case. -/
theorem fallback_vibe_counterexample :
    (analyze_image envDecodeFail (str "I love food")).tags = ["food"] ∧
      (analyze_image envDecodeFail (str "I love food")).vibe = "neutral" ∧
      ("neutral" : String) ≠ "food" := by
  decide

/-- C10 amended.  When no path is given, cv2 is unavailable or the file does
not exist, `analyze_image` returns 0.5 scores, zero faces, the caption tags
and as vibe the first caption tag (or "neutral" if none); when the bytes fail
to decode it returns the same record except the vibe is always "neutral",
even when caption tags exist. -/
theorem analyze_image_fallback_contract (env : Env) (c : List ℕ) :
    ((env.pathGiven = false ∨ env.cv2 = false ∨ env.fileExists = false) →
        analyze_image env c =
          { tags := tags_from_caption c,
            vibe := (tags_from_caption c).headD "neutral",
            lighting_score := 1 / 2, quality_score := 1 / 2, faces_count := 0 }) ∧
      ((env.pathGiven = true ∧ env.cv2 = true ∧ env.fileExists = true ∧
          env.readRaises = false ∧ env.decoded = none) →
        analyze_image env c =
          { tags := tags_from_caption c, vibe := "neutral",
            lighting_score := 1 / 2, quality_score := 1 / 2, faces_count := 0 }) := by
  constructor
  · intro h
    rcases h with h | h | h <;> simp [analyze_image, h]
  · rintro ⟨hp, hc2, hf, hr, hd⟩
    simp [analyze_image, hp, hc2, hf, hr, hd]

theorem analyze_image_fallback_contract_witness :
    analyze_image envNoPath (str "food") =
      { tags := tags_from_caption (str "food"),
        vibe := (tags_from_caption (str "food")).headD "neutral",
        lighting_score := 1 / 2, quality_score := 1 / 2, faces_count := 0 } ∧
      analyze_image envDecodeFail (str "food") =
        { tags := tags_from_caption (str "food"), vibe := "neutral",
          lighting_score := 1 / 2, quality_score := 1 / 2, faces_count := 0 } :=
  ⟨(analyze_image_fallback_contract envNoPath (str "food")).1 (Or.inl rfl),
   (analyze_image_fallback_contract envDecodeFail (str "food")).2
     ⟨rfl, rfl, rfl, rfl, rfl⟩⟩

end ImageAnalysis
